import Mathlib

/-!
# Gophermart: order-accrual pipeline and balance ledger, shallow embedding

A shallow embedding of the gophermart loyalty backend's core: the postgres
repository operations (`GetOrder`, `GetBalance`, `CreateTransaction`,
`UpdateBalance`, `UpdateOrder`), the transactional service operations
(`OrderService.SetProcessed`, `UserService.Withdraw`) and the accrual HTTP
client's response taxonomy (`Client.GetOrderAccrual`).

Monetary amounts (Go `decimal.Decimal`, SQL `numeric(10,2)`) are embedded as
integers counted in hundredths (so `100.50` is `10050`); the pipeline and the
ledger only add, negate and compare amounts, and on the `numeric(10,2)`
fixed-point domain those operations are exactly the integer ones.

Database state is embedded as lists of rows; a SQL `UPDATE ... WHERE` is a
`List.map` touching the matching rows, a `RETURNING` + `CollectOneRow` is a
`List.find?` on the updated rows.  `Storage.InTx` is embedded by returning the
pre-call state whenever the transaction body fails (rollback) and the body's
final state when it succeeds (commit).  Wall-clock instants (`time.Now()`) and
generated UUIDs are threaded as explicit `now` / `txId` parameters.
-/

deriving instance DecidableEq for Except

namespace Gophermart

/-- Order statuses, `internal/models` (`OrderStatusNew` etc.). -/
def orderStatusNew : String := "new"

/-- Order status `processing`. -/
def orderStatusProcessing : String := "processing"

/-- Order status `invalid` (terminal). -/
def orderStatusInvalid : String := "invalid"

/-- Order status `processed` (terminal). -/
def orderStatusProcessed : String := "processed"

/-- Ledger transaction type for accrual credits (`models.TransactionTypeAccrual`). -/
def transactionTypeAccrual : String := "accrual"

/-- Ledger transaction type for withdrawals (`models.TransactionTypeWithdrawal`;
the commit embedded here spells the constant `TransactionTypeWithdrawn`, the
value plays the same role on both sides of the ledger code). -/
def transactionTypeWithdrawal : String := "withdrawal"

/-- The `orders.status` check constraint of the schema:
`status in ('new', 'processing', 'invalid', 'processed')`. -/
def validOrderStatus (s : String) : Bool :=
  s = orderStatusNew || s = orderStatusProcessing ||
  s = orderStatusInvalid || s = orderStatusProcessed

/-- `models.Order` / the `orders` table row. `accrual` is a nullable column. -/
structure Order where
  id : Nat
  number : String
  userId : Nat
  status : String
  accrual : Option ℤ
  uploadedAt : Nat
  modifiedAt : Nat
deriving DecidableEq, Repr

/-- `models.Balance` / the `balances` table row. -/
structure Balance where
  id : Nat
  userId : Nat
  current : ℤ
  withdrawn : ℤ
deriving DecidableEq, Repr

/-- `models.Transaction` / the `transactions` table row. -/
structure Transaction where
  id : Nat
  processedAt : Nat
  userId : Nat
  orderNumber : String
  ttype : String
  amount : ℤ
deriving DecidableEq, Repr

/-- The relational store the repository operates on: the `users` table is kept
only as the set of user ids (the target of the foreign keys). -/
structure Storage where
  users : List Nat
  orders : List Order
  balances : List Balance
  transactions : List Transaction
deriving DecidableEq, Repr

/-- The application error taxonomy (`internal/apperrors`), plus `dbError` for
the generic `fmt.Errorf("db error: %w", err)` wrapping and `negativeAccrual`
for the ad-hoc `errors.New("accrual can't be negative")` in `SetProcessed`. -/
inductive Err where
  | userNotFound
  | orderNotFound
  | orderAlreadyExists
  | orderNumberTaken
  | orderAlreadyProcessed
  | balanceInsufficient
  | negativeAccrual
  | dbError
deriving DecidableEq, Repr

/-- `OrderRepo.GetOrder(ctx, number, lock)`: `SELECT * FROM orders WHERE number
= $1` (`FOR UPDATE` when `lock`); `pgx.ErrNoRows` is mapped to
`apperrors.ErrOrderNotFound`.  The row lock has no observable effect in this
sequential embedding; the parameter is kept for signature fidelity. -/
def getOrder (st : Storage) (number : String) (lock : Bool) : Except Err Order :=
  match st.orders.find? (fun o => o.number = number) with
  | some o => .ok o
  | none => .error .orderNotFound

/-- `BalanceRepo.GetBalance(ctx, userID, lock)`: `SELECT ... FROM balances
WHERE user_id = $1` (`FOR UPDATE` when `lock`); `pgx.ErrNoRows` is mapped to
`apperrors.ErrUserNotFound`. -/
def getBalance (st : Storage) (userId : Nat) (lock : Bool) : Except Err Balance :=
  match st.balances.find? (fun b => b.userId = userId) with
  | some b => .ok b
  | none => .error .userNotFound

/-- Does a ledger row with this `(type, order_number)` pair already exist
(the `transactions_unique_order_and_type` unique constraint)? -/
def txPairExists (st : Storage) (ttype orderNumber : String) : Bool :=
  st.transactions.any (fun t => t.ttype = ttype && t.orderNumber = orderNumber)

/-- `BalanceRepo.CreateTransaction(ctx, t)`: `INSERT INTO transactions ...
RETURNING ...`.  The Go switch maps a `ForeignKeyViolation` (the `user_id`
reference) to `apperrors.ErrUserNotFound`; every other failure — including a
`UniqueViolation` of `transactions_unique_order_and_type` — falls into the
default branch and is returned as the generic `db error`. -/
def createTransaction (st : Storage) (t : Transaction) :
    Except Err (Transaction × Storage) :=
  if ¬ st.users.contains t.userId then
    .error .userNotFound
  else if txPairExists st t.ttype t.orderNumber then
    .error .dbError
  else
    .ok (t, { st with transactions := t :: st.transactions })

/-- The per-row effect of `BalanceRepo.UpdateBalance`'s SQL `UPDATE balances
SET current = current + $2, withdrawn = withdrawn + $3 WHERE user_id = $1`. -/
def balanceRowUpd (userId : Nat) (currentDelta withdrawnDelta : ℤ)
    (b : Balance) : Balance :=
  if b.userId = userId then
    { b with current := b.current + currentDelta,
             withdrawn := b.withdrawn + withdrawnDelta }
  else b

/-- `BalanceRepo.UpdateBalance(ctx, transaction)` (the transaction-driven
variant): the deltas are `(+amount, 0)` for an accrual and `(-amount, +amount)`
for a withdrawal.  The `current_always_positive` check constraint
(`current >= 0`) fires on any updated row that would go negative and the Go
switch maps that `CheckViolation` to `apperrors.ErrBalanceInsufficient`; a
statement updating no row surfaces `pgx.ErrNoRows` through `CollectOneRow`,
which falls into the default generic `db error` branch. -/
def balanceTxUpd (t : Transaction) : Balance → Balance :=
  balanceRowUpd t.userId
    (if t.ttype = transactionTypeWithdrawal then -t.amount else t.amount)
    (if t.ttype = transactionTypeWithdrawal then t.amount else 0)

/-- `BalanceRepo.UpdateBalance(ctx, transaction)` continued: the row update is
`balanceTxUpd`. -/
def updateBalance (st : Storage) (t : Transaction) :
    Except Err (Balance × Storage) :=
  match (st.balances.map (balanceTxUpd t)).find? (fun b => b.userId = t.userId) with
  | none => .error .dbError
  | some b =>
    if (st.balances.map (balanceTxUpd t)).any (fun x => x.userId = t.userId && x.current < 0) then
      .error .balanceInsufficient
    else
      .ok (b, { st with balances := st.balances.map (balanceTxUpd t) })

/-- The per-row effect of `OrderRepo.UpdateOrder`'s SQL `UPDATE orders SET
status = coalesce($2, status), accrual = coalesce($3, accrual), modified_at =
coalesce($4, modified_at) WHERE number = $1`. -/
def orderRowUpd (number : String) (status : Option String) (accrual : Option ℤ)
    (modifiedAt : Option Nat) (o : Order) : Order :=
  if o.number = number then
    { o with status := status.getD o.status,
             accrual := if accrual.isSome then accrual else o.accrual,
             modifiedAt := modifiedAt.getD o.modifiedAt }
  else o

/-- `OrderRepo.UpdateOrder(ctx, number, status, accrual)`: the `modified_at`
argument is `time.Now()` when at least one of `status`/`accrual` is non-nil and
SQL `NULL` (keep the stored value) otherwise.  `pgx.ErrNoRows` maps to
`apperrors.ErrOrderNotFound`; the schema's `orders.status` check constraint
makes the statement fail with a `CheckViolation` (generic `db error` in the Go
switch) when the row would be given a status outside the enum. -/
def touchModifiedAt (now : Nat) (status : Option String) (accrual : Option ℤ) :
    Option Nat :=
  if status.isSome || accrual.isSome then some now else none

/-- `OrderRepo.UpdateOrder(ctx, number, status, accrual)` continued: the row
update is `orderRowUpd` with `touchModifiedAt` as the `modified_at` argument. -/
def updateOrder (st : Storage) (now : Nat) (number : String)
    (status : Option String) (accrual : Option ℤ) :
    Except Err (Order × Storage) :=
  match (st.orders.map (orderRowUpd number status accrual (touchModifiedAt now status accrual))).find? (fun o => o.number = number) with
  | none => .error .orderNotFound
  | some o =>
    if ¬ validOrderStatus o.status then .error .dbError
    else .ok (o, { st with orders := st.orders.map (orderRowUpd number status accrual (touchModifiedAt now status accrual)) })

/-- `Storage.InTx(ctx, fn)`: run the body against the store; on error roll the
whole step back (the caller observes the pre-call state), on success commit the
body's final state. -/
def inTx (st : Storage) (body : Storage → Except Err (α × Storage)) :
    Except Err α × Storage :=
  match body st with
  | .error e => (.error e, st)
  | .ok (a, st1) => (.ok a, st1)

/-- The transaction row inserted by `SetProcessed`: type `accrual`, amount the
accrual, order number and owner taken from the locked order row. -/
def accrualTx (now txId : Nat) (order : Order) (accrual : ℤ) : Transaction :=
  { id := txId, processedAt := now, userId := order.userId,
    orderNumber := order.number, ttype := transactionTypeAccrual,
    amount := accrual }

/-- `OrderService.SetProcessed(ctx, number, newStatus, accrual)`: reject a
negative accrual before opening the transaction; inside `InTx` lock the order
and the owner's balance, abort with `ErrOrderAlreadyProcessed` if the order is
already terminal, then insert the accrual ledger row, apply it to the balance
and update the order's status/accrual/modified-at.  `now` stands for the
`time.Now()` calls and `txId` for `uuid.New()`. -/
def setProcessedBody (now txId : Nat) (number newStatus : String) (accrual : ℤ)
    (st0 : Storage) : Except Err (Order × Storage) :=
  match getOrder st0 number true with
  | .error e => .error e
  | .ok order =>
    match getBalance st0 order.userId true with
    | .error e => .error e
    | .ok _ =>
      if order.status = orderStatusProcessed ∨ order.status = orderStatusInvalid then
        .error .orderAlreadyProcessed
      else
        match createTransaction st0 (accrualTx now txId order accrual) with
        | .error e => .error e
        | .ok (t, st1) =>
          match updateBalance st1 t with
          | .error e => .error e
          | .ok (_, st2) =>
            match updateOrder st2 now number (some newStatus) (some accrual) with
            | .error e => .error e
            | .ok (o, st3) => .ok (o, st3)

/-- `OrderService.SetProcessed` continued: the negative-accrual guard sits in
front of the transaction; the body runs under `InTx`. -/
def setProcessed (now txId : Nat) (st : Storage) (number newStatus : String)
    (accrual : ℤ) : Except Err Order × Storage :=
  if accrual < 0 then
    (.error .negativeAccrual, st)
  else
    inTx st (setProcessedBody now txId number newStatus accrual)

/-- `UserService.Withdraw(ctx, userID, orderNum, amount)`: inside `InTx` lock
the balance, reject with `ErrBalanceInsufficient` when the current balance is
less than the requested amount (the Go caller wraps the error with
`fmt.Errorf("can't withdraw. Err: %w", ...)`, which keeps `errors.Is`
matching), otherwise insert the withdrawal ledger row and debit the balance.
The debit goes through the delta-driven `UpdateBalance(ctx, userID, delta)` of
the same commit, whose negative-delta branch runs `SET current = current - $2,
withdrawn = withdrawn + $2` with `$2 = |delta|`; on this embedding's ledger
that is exactly `updateBalance` applied to the withdrawal transaction. -/
def withdrawBody (now txId : Nat) (userId : Nat) (orderNum : String)
    (amount : ℤ) (st0 : Storage) : Except Err (Balance × Storage) :=
  match getBalance st0 userId true with
  | .error e => .error e
  | .ok existed =>
    if existed.current < amount then
      .error .balanceInsufficient
    else
      match createTransaction st0
        { id := txId, processedAt := now, userId := userId,
          orderNumber := orderNum, ttype := transactionTypeWithdrawal,
          amount := amount } with
      | .error e => .error e
      | .ok (t, st1) =>
        match updateBalance st1 t with
        | .error e => .error e
        | .ok (b, st2) => .ok (b, st2)

/-- `UserService.Withdraw` continued: the body runs under `InTx`. -/
def withdraw (now txId : Nat) (st : Storage) (userId : Nat) (orderNum : String)
    (amount : ℤ) : Except Err Balance × Storage :=
  inTx st (withdrawBody now txId userId orderNum amount)

/-- Modelled from the spec: the repository under `src/` holds only the
value-typed `SetProcessed(ctx, number, newStatus string, accrual
decimal.Decimal)`; the pipeline consumer and the order-service tests call a
later `SetProcessed` whose accrual parameter is `*decimal.Decimal`, and that
implementation is missing from `src/`.  Per spec §4.5, Finalize locks the
balance and inserts the ledger row *only if crediting an accrual*; with no
accrual it just guards the terminal status and updates the order.  The `some`
branch is the value-typed implementation embedded above. -/
def setProcessedOptNoneBody (now : Nat) (number newStatus : String)
    (st0 : Storage) : Except Err (Order × Storage) :=
  match getOrder st0 number true with
  | .error e => .error e
  | .ok order =>
    if order.status = orderStatusProcessed ∨ order.status = orderStatusInvalid then
      .error .orderAlreadyProcessed
    else
      match updateOrder st0 now number (some newStatus) none with
      | .error e => .error e
      | .ok (o, st1) => .ok (o, st1)

/-- Modelled from the spec, continued: dispatch on the optional accrual. -/
def setProcessedOpt (now txId : Nat) (st : Storage) (number newStatus : String) :
    Option ℤ → Except Err Order × Storage
  | some accrual => setProcessed now txId st number newStatus accrual
  | none => inTx st (setProcessedOptNoneBody now number newStatus)

/-- The `accrual.CodeNoContent` branch of `Consumer.worker`: a 204 no-content
response makes the worker finalize the order as `invalid` with no accrual
(`SetProcessed(ctx, order.Number, models.OrderStatusInvalid, nil)`). -/
def workerNoContent (now txId : Nat) (st : Storage) (order : Order) :
    Except Err Order × Storage :=
  setProcessedOpt now txId st order.number orderStatusInvalid none

/-- `accrual.OrderAccrual`: the decoded 200-response body. -/
structure OrderAccrual where
  orderNumber : String
  status : String
  accrual : Option ℤ
deriving DecidableEq, Repr

/-- `accrual.AccrualError` codes (`CodeRetryAfter`, `CodeNoContent`,
`CodeUnknown`). -/
def codeRetryAfter : String := "retry-after"

/-- `accrual.CodeNoContent`. -/
def codeNoContent : String := "no-content"

/-- `accrual.CodeUnknown`. -/
def codeUnknown : String := "unknown"

/-- The error channel of `Client.GetOrderAccrual`: an `accrual.AccrualError`
carrying a code and the retry-after delay in whole seconds
(`time.Duration(retryAfter) * time.Second`), or the plain wrapped error the
client returns when the 200 body fails to JSON-decode. -/
inductive ClientErr where
  | accrualErr (code : String) (retryAfterSec : ℤ)
  | decodeFailed
deriving DecidableEq, Repr

/-- An HTTP response as `GetOrderAccrual` observes it: the status code, the
raw `Retry-After` header and the body — `some a` when the body JSON-decodes
into an `OrderAccrual`, `none` when decoding fails. -/
structure HttpResponse where
  statusCode : Nat
  retryAfterHeader : String
  body : Option OrderAccrual
deriving DecidableEq, Repr

/-- `strings.TrimSpace`: strip leading and trailing whitespace. -/
def trimSpace (s : String) : String :=
  String.mk (((s.toList.dropWhile Char.isWhitespace).reverse.dropWhile
    Char.isWhitespace).reverse)

/-- The numeric value of a digit run, most significant first. -/
def digitsVal (cs : List Char) : ℕ :=
  cs.foldl (fun acc c => acc * 10 + (c.toNat - 48)) 0

/-- `strconv.Atoi`: an optional single sign followed by at least one ASCII
digit, rejecting values outside the 64-bit int range (Go reports `ErrRange`
there, an error like any other to the caller). -/
def atoi (s : String) : Option ℤ :=
  match
    (match s.toList with
     | List.cons c rest =>
       if c = Char.ofNat 45 then ((-1 : ℤ), rest)
       else if c = Char.ofNat 43 then ((1 : ℤ), rest)
       else ((1 : ℤ), List.cons c rest)
     | List.nil => ((1 : ℤ), List.nil)) with
  | (sign, digits) =>
    if digits.length = 0 ∨ ¬ digits.all Char.isDigit then
      none
    else
      if sign * (digitsVal digits : ℕ) < -(2 ^ 63) ∨
          2 ^ 63 - 1 < sign * (digitsVal digits : ℕ) then none
      else some (sign * (digitsVal digits : ℕ))

/-- `Client.processTooManyRequest`: parse `strings.TrimSpace` of the
`Retry-After` header with `strconv.Atoi`, defaulting to 60 seconds when the
parse fails. -/
def retryAfterSeconds (header : String) : ℤ :=
  (atoi (trimSpace header)).getD 60

/-- `Client.GetOrderAccrual`, dispatch on the response status code: 200 decodes
the body (a decode failure is returned as a plain error, not an
`AccrualError`); 429 becomes a rate-limited `AccrualError` with the parsed
retry-after; 204 becomes a no-content `AccrualError`; every other code becomes
an unknown `AccrualError`. -/
def getOrderAccrual (resp : HttpResponse) : Except ClientErr OrderAccrual :=
  if resp.statusCode = 200 then
    match resp.body with
    | some a => .ok a
    | none => .error .decodeFailed
  else if resp.statusCode = 429 then
    .error (.accrualErr codeRetryAfter (retryAfterSeconds resp.retryAfterHeader))
  else if resp.statusCode = 204 then
    .error (.accrualErr codeNoContent 0)
  else
    .error (.accrualErr codeUnknown 0)

/-- One balance-ledger step as the non-negativity invariant sees it: apply
`UpdateBalance` for the transaction, keeping the previous state when the
statement is rejected (the failed SQL statement changes no row). -/
def applyBalanceUpdate (st : Storage) (t : Transaction) : Storage :=
  match updateBalance st t with
  | .ok (_, st1) => st1
  | .error _ => st

/-- Every balance row of the store has a non-negative spendable amount. -/
def balancesNonneg (st : Storage) : Prop :=
  ∀ b ∈ st.balances, 0 ≤ b.current

/-- A freshly created balance row (`CreateBalance`: `INSERT INTO balances
(user_id, current, withdrawn) VALUES ($1, 0, 0)`). -/
def freshBalance (id userId : Nat) : Balance :=
  { id := id, userId := userId, current := 0, withdrawn := 0 }

/-! ### Concrete fixtures used by the witnesses and counterexamples -/

/-- A new order, number `4242424242424242`, owned by user 7. -/
def exOrder : Order :=
  { id := 1, number := "4242424242424242", userId := 7,
    status := orderStatusNew, accrual := none, uploadedAt := 5, modifiedAt := 5 }

/-- User 7's balance: current 100, withdrawn 0. -/
def exBalance : Balance :=
  { id := 2, userId := 7, current := 10000, withdrawn := 0 }

/-- A store with one user, one new order and one balance. -/
def exStorage : Storage :=
  { users := [7], orders := [exOrder], balances := [exBalance], transactions := [] }

/-- The same store with the order already in the terminal status `processed`,
carrying accrual 20. -/
def exTerminalStorage : Storage :=
  { exStorage with
    orders := [{ exOrder with status := orderStatusProcessed, accrual := some 2000 }] }

/-- The terminal-order store with the owner's balance row missing. -/
def exTerminalNoBalanceStorage : Storage :=
  { exTerminalStorage with balances := [] }

/-- An existing accrual ledger row for order number `123`, user 7. -/
def exTx : Transaction :=
  { id := 50, processedAt := 3, userId := 7, orderNumber := "123",
    ttype := transactionTypeAccrual, amount := 3000 }

/-- A store already holding `exTx`, to exercise the
`transactions_unique_order_and_type` constraint. -/
def exTxStorage : Storage :=
  { exStorage with transactions := [exTx] }

/-! ### Inversion lemmas for the repository operations -/

theorem getOrder_ok {st : Storage} {number : String} {lock : Bool} {o : Order}
    (h : getOrder st number lock = .ok o) :
    st.orders.find? (fun x => x.number = number) = some o := by
  unfold getOrder at h
  cases hf : st.orders.find? (fun x => x.number = number) <;> simp [hf] at h
  simp [h]

theorem createTransaction_ok {st : Storage} {t t1 : Transaction} {st1 : Storage}
    (h : createTransaction st t = .ok (t1, st1)) :
    t1 = t ∧ st1 = { st with transactions := t :: st.transactions } := by
  unfold createTransaction at h
  split at h
  · simp at h
  · split at h
    · simp at h
    · simp only [Except.ok.injEq, Prod.mk.injEq] at h
      exact ⟨h.1.symm, h.2.symm⟩

theorem updateBalance_ok {st : Storage} {t : Transaction} {b : Balance} {st1 : Storage}
    (h : updateBalance st t = .ok (b, st1)) :
    st1 = { st with balances := st.balances.map (balanceTxUpd t) } := by
  unfold updateBalance at h
  split at h
  · simp at h
  · split at h
    · simp at h
    · simp only [Except.ok.injEq, Prod.mk.injEq] at h
      exact h.2.symm

theorem updateOrder_ok {st : Storage} {now : Nat} {number : String}
    {status : Option String} {accrual : Option ℤ} {o : Order} {st1 : Storage}
    (h : updateOrder st now number status accrual = .ok (o, st1)) :
    st1 = { st with orders := st.orders.map (orderRowUpd number status accrual (touchModifiedAt now status accrual)) } := by
  unfold updateOrder at h
  split at h
  · simp at h
  · split at h
    · simp at h
    · simp only [Except.ok.injEq, Prod.mk.injEq] at h
      exact h.2.symm

theorem orderRowUpd_number (number : String) (status : Option String)
    (accrual : Option ℤ) (modifiedAt : Option Nat) (o : Order) :
    (orderRowUpd number status accrual modifiedAt o).number = o.number := by
  unfold orderRowUpd
  split <;> rfl

theorem orderRowUpd_frame (number : String) (status : Option String)
    (accrual : Option ℤ) (modifiedAt : Option Nat) (o : Order) :
    (orderRowUpd number status accrual modifiedAt o).id = o.id ∧
    (orderRowUpd number status accrual modifiedAt o).number = o.number ∧
    (orderRowUpd number status accrual modifiedAt o).userId = o.userId ∧
    (orderRowUpd number status accrual modifiedAt o).uploadedAt = o.uploadedAt := by
  unfold orderRowUpd
  split <;> exact ⟨rfl, rfl, rfl, rfl⟩

/-- `UPDATE orders ... WHERE number = $1 RETURNING *` with `CollectOneRow`:
the returned row is the updated image of the row the `WHERE` clause found. -/
theorem updateOrder_find {st : Storage} {now : Nat} {number : String}
    {status : Option String} {accrual : Option ℤ} :
    (st.orders.map (orderRowUpd number status accrual (touchModifiedAt now status accrual))).find?
        (fun o => o.number = number)
      = (st.orders.find? (fun o => o.number = number)).map
          (orderRowUpd number status accrual (touchModifiedAt now status accrual)) := by
  rw [List.find?_map]
  have hp : ((fun o => decide (o.number = number)) ∘
        orderRowUpd number status accrual (touchModifiedAt now status accrual))
      = (fun o : Order => decide (o.number = number)) := by
    funext o
    simp [Function.comp, orderRowUpd_number]
  rw [hp]

/-- With no status, no accrual and a NULL `modified_at` argument, the SQL row
update `SET status = coalesce(NULL, status), accrual = coalesce(NULL, accrual),
modified_at = coalesce(NULL, modified_at)` is the identity. -/
theorem orderRowUpd_id (number : String) (o : Order) :
    orderRowUpd number none none none o = o := by
  unfold orderRowUpd
  split <;> rfl

theorem orderRowUpd_map_id (number : String) (l : List Order) :
    l.map (orderRowUpd number none none none) = l := by
  have h : orderRowUpd number none none none = id := funext (orderRowUpd_id number)
  rw [h, List.map_id]

/-- The row a successful `UpdateOrder` returns is the updated image of the row
the `WHERE number = $1` clause found. -/
theorem updateOrder_ok_row {st : Storage} {now : Nat} {number : String}
    {status : Option String} {accrual : Option ℤ} {o ord : Order} {st1 : Storage}
    (hord : st.orders.find? (fun x => x.number = number) = some ord)
    (h : updateOrder st now number status accrual = .ok (o, st1)) :
    o = orderRowUpd number status accrual (touchModifiedAt now status accrual) ord := by
  unfold updateOrder at h
  rw [updateOrder_find, hord] at h
  simp only [Option.map_some'] at h
  split at h
  · simp at h
  · simp only [Except.ok.injEq, Prod.mk.injEq] at h
    exact h.1.symm

theorem balanceTxUpd_accrualTx (now txId : Nat) (ord : Order) (a : ℤ) :
    balanceTxUpd (accrualTx now txId ord a) = balanceRowUpd ord.userId a 0 := by
  unfold balanceTxUpd accrualTx
  rw [if_neg (by decide : ¬ (transactionTypeAccrual = transactionTypeWithdrawal)),
      if_neg (by decide : ¬ (transactionTypeAccrual = transactionTypeWithdrawal))]

/-- Inverting a successful `SetProcessed` transaction body: the order existed,
and the final state carries the order update, the balance credit and the new
ledger row together. -/
theorem setProcessedBody_ok {now txId : Nat} {number newStatus : String}
    {accrual : ℤ} {st : Storage} {o : Order} {st3 : Storage}
    (h : setProcessedBody now txId number newStatus accrual st = .ok (o, st3)) :
    ∃ ord, getOrder st number true = .ok ord ∧
      st3 = { users := st.users,
              orders := st.orders.map (orderRowUpd number (some newStatus) (some accrual) (some now)),
              balances := st.balances.map (balanceRowUpd ord.userId accrual 0),
              transactions := accrualTx now txId ord accrual :: st.transactions } := by
  unfold setProcessedBody at h
  split at h
  · simp at h
  next order hg =>
    split at h
    · simp at h
    · split at h
      · simp at h
      · split at h
        · simp at h
        next t st1 hct =>
          split at h
          · simp at h
          next b st2 hub =>
            split at h
            · simp at h
            next o3 st3x huo =>
              simp only [Except.ok.injEq, Prod.mk.injEq] at h
              obtain ⟨rfl, rfl⟩ := h
              obtain ⟨rfl, rfl⟩ := createTransaction_ok hct
              have h2 := updateBalance_ok hub
              have h3 := updateOrder_ok huo
              subst h2
              subst h3
              refine ⟨order, hg, ?_⟩
              simp [balanceTxUpd_accrualTx, touchModifiedAt]

/-! ### Claim theorems -/

/-- C1: `SetProcessed` is atomic.  Whenever it returns an error — from the
negative-accrual guard or from any step inside the transaction (order lookup,
balance lookup, terminal-status guard, ledger insert, balance update, order
update) — the store is exactly as it was before the call: same order rows,
same ledger, same balances.  When it returns without error, the final store
carries the order status/accrual update, the accrual ledger row and the
balance credit together. -/
theorem setProcessed_atomic (now txId : Nat) (st : Storage)
    (number newStatus : String) (accrual : ℤ) (res : Except Err Order) (stF : Storage)
    (h : setProcessed now txId st number newStatus accrual = (res, stF)) :
    (∀ e, res = .error e → stF = st) ∧
    (∀ o, res = .ok o →
        ∃ ord, getOrder st number true = .ok ord ∧
          stF = { users := st.users,
                  orders := st.orders.map (orderRowUpd number (some newStatus) (some accrual) (some now)),
                  balances := st.balances.map (balanceRowUpd ord.userId accrual 0),
                  transactions := accrualTx now txId ord accrual :: st.transactions }) := by
  unfold setProcessed inTx at h
  split at h
  · injection h with h1 h2
    subst h2
    exact ⟨fun e _ => rfl, fun o ho => nomatch h1.trans ho⟩
  · split at h
    next e heq =>
      injection h with h1 h2
      subst h2
      exact ⟨fun e2 _ => rfl, fun o ho => nomatch h1.trans ho⟩
    next a st1 heq =>
      injection h with h1 h2
      subst h2
      refine ⟨fun e he => Except.noConfusion (h1.trans he), fun o ho => ?_⟩
      obtain ⟨ord, hg, hst⟩ := setProcessedBody_ok heq
      exact ⟨ord, hg, hst⟩

/-- C1 witness: the spec's success scenario — order `4242424242424242`
accrues `100.50` and status `processed`; the final store holds the processed
order, the single accrual ledger row and the credited balance together.  On
the error side, a call for a missing order number leaves the store as it
was. -/
theorem setProcessed_atomic_witness :
    (∃ ord, getOrder exStorage "4242424242424242" true = .ok ord ∧
      (setProcessed 10 99 exStorage "4242424242424242" "processed" 10050).2 =
        { users := exStorage.users,
          orders := exStorage.orders.map (orderRowUpd "4242424242424242" (some "processed") (some 10050) (some 10)),
          balances := exStorage.balances.map (balanceRowUpd ord.userId 10050 0),
          transactions := accrualTx 10 99 ord 10050 :: exStorage.transactions }) ∧
    (setProcessed 10 99 exStorage "999" "processed" 10050).2 = exStorage :=
  ⟨(setProcessed_atomic 10 99 exStorage "4242424242424242" "processed" 10050
      (setProcessed 10 99 exStorage "4242424242424242" "processed" 10050).1
      (setProcessed 10 99 exStorage "4242424242424242" "processed" 10050).2
      rfl).2
    { exOrder with status := "processed", accrual := some 10050, modifiedAt := 10 }
    (by decide),
   (setProcessed_atomic 10 99 exStorage "999" "processed" 10050
      (setProcessed 10 99 exStorage "999" "processed" 10050).1
      (setProcessed 10 99 exStorage "999" "processed" 10050).2
      rfl).1 Err.orderNotFound (by decide)⟩

/-- C9: a call to `SetProcessed` with a negative accrual amount returns an
error without starting a storage transaction — the order rows, the ledger and
the balances are all unchanged. -/
theorem setProcessed_negative_accrual_rejected (now txId : Nat) (st : Storage)
    (number newStatus : String) (accrual : ℤ) (h : accrual < 0) :
    setProcessed now txId st number newStatus accrual = (.error .negativeAccrual, st) := by
  unfold setProcessed
  rw [if_pos h]

/-- C9 witness: `SetProcessed` with accrual `-1` on the concrete store. -/
theorem setProcessed_negative_accrual_rejected_witness :
    (-1 : ℤ) < 0 ∧
    setProcessed 0 1 exStorage "4242424242424242" "processed" (-1)
      = (.error .negativeAccrual, exStorage) :=
  ⟨by norm_num,
   setProcessed_negative_accrual_rejected 0 1 exStorage "4242424242424242"
     "processed" (-1) (by norm_num)⟩

/-- C2 (amended): when the order is already terminal (`processed`/`invalid`),
its owner has a balance row, and the requested accrual is non-negative, any
later `SetProcessed` call returns `ErrOrderAlreadyProcessed` and leaves the
entire store unchanged — no status/accrual change, no new ledger row, no
balance credit.  (For a negative accrual the call still changes nothing but
returns the negative-accrual error instead: see the counterexample.) -/
theorem setProcessed_terminal_sticky (now txId : Nat) (st : Storage)
    (number newStatus : String) (accrual : ℤ) (ord : Order) (b : Balance)
    (hacc : 0 ≤ accrual)
    (hord : st.orders.find? (fun o => o.number = number) = some ord)
    (hbal : st.balances.find? (fun x => x.userId = ord.userId) = some b)
    (hterm : ord.status = orderStatusProcessed ∨ ord.status = orderStatusInvalid) :
    setProcessed now txId st number newStatus accrual
      = (.error .orderAlreadyProcessed, st) := by
  unfold setProcessed
  rw [if_neg (not_lt.mpr hacc)]
  unfold inTx setProcessedBody getOrder getBalance
  rw [hord]
  simp only [hbal, if_pos hterm]

/-- C2 counterexample: the claim promises `ErrOrderAlreadyProcessed` for *any*
accrual amount, but with a negative accrual the guard in front of the
transaction answers first: on a store whose order is already `processed`, a
second call with accrual `-1` returns the negative-accrual error, not the
already-processed error (the store is still left unchanged).  Likewise, when
the owner's balance row is missing, the balance lookup — which the code runs
*before* the terminal-status guard — answers `ErrUserNotFound` instead. -/
theorem setProcessed_terminal_sticky_counterexample :
    setProcessed 0 9 exTerminalStorage "4242424242424242" "processed" (-1)
      = (.error .negativeAccrual, exTerminalStorage) ∧
    Err.negativeAccrual ≠ Err.orderAlreadyProcessed ∧
    setProcessed 0 9 exTerminalNoBalanceStorage "4242424242424242" "processed" 5500
      = (.error .userNotFound, exTerminalNoBalanceStorage) ∧
    Err.userNotFound ≠ Err.orderAlreadyProcessed := by
  refine ⟨rfl, by decide, by decide, by decide⟩

/-- C2 witness: a second `SetProcessed` on the already-`processed` concrete
store, with a different (non-negative) amount, reports already-processed and
changes nothing. -/
theorem setProcessed_terminal_sticky_witness :
    (0 : ℤ) ≤ 5500 ∧
    setProcessed 3 9 exTerminalStorage "4242424242424242" "processed" 5500
      = (.error .orderAlreadyProcessed, exTerminalStorage) :=
  ⟨by norm_num,
   setProcessed_terminal_sticky 3 9 exTerminalStorage "4242424242424242"
     "processed" 5500 { exOrder with status := orderStatusProcessed, accrual := some 2000 }
     exBalance (by norm_num) rfl rfl (Or.inl rfl)⟩

/-- C5: a withdrawal request whose amount exceeds the user's current balance is
rejected with the typed `ErrBalanceInsufficient` (the Go caller's
`fmt.Errorf("can't withdraw. Err: %w", ...)` wrapping keeps `errors.Is`
matching it), creates no ledger row and leaves the balance — and the whole
store — unchanged. -/
theorem withdraw_insufficient_rejected (now txId : Nat) (st : Storage)
    (userId : Nat) (orderNum : String) (amount : ℤ) (b : Balance)
    (hbal : st.balances.find? (fun x => x.userId = userId) = some b)
    (hlt : b.current < amount) :
    withdraw now txId st userId orderNum amount = (.error .balanceInsufficient, st) := by
  unfold withdraw inTx withdrawBody getBalance
  rw [hbal]
  simp only [if_pos hlt]

/-- C5 witness: the spec's scenario — withdrawal of `150.00` against `current = 100.00` is rejected, both `current` and `withdrawn` unchanged. -/
theorem withdraw_insufficient_rejected_witness :
    exStorage.balances.find? (fun x => x.userId = 7) = some exBalance ∧
    exBalance.current < 15000 ∧
    withdraw 11 100 exStorage 7 "1234" 15000 = (.error .balanceInsufficient, exStorage) :=
  ⟨rfl, by norm_num [exBalance],
   withdraw_insufficient_rejected 11 100 exStorage 7 "1234" 15000 exBalance rfl
     (by norm_num [exBalance])⟩

/-- C6 (amended): a ledger insert repeating an existing `(type, order number)`
pair fails, but the uniqueness violation surfaces as the generic database
error (`fmt.Errorf("db error: %w", err)`), not as a typed already-exists
error; only foreign-key violations get a typed mapping (`ErrUserNotFound`). -/
theorem createTransaction_duplicate_fails (st : Storage) (t : Transaction)
    (huser : st.users.contains t.userId = true)
    (hdup : txPairExists st t.ttype t.orderNumber = true) :
    createTransaction st t = .error .dbError := by
  unfold createTransaction
  rw [if_neg (not_not_intro huser), if_pos hdup]

/-- C6 witness: inserting a second `accrual` row for order `123`. -/
theorem createTransaction_duplicate_fails_witness :
    exTxStorage.users.contains 7 = true ∧
    txPairExists exTxStorage transactionTypeAccrual "123" = true ∧
    createTransaction exTxStorage
        { id := 51, processedAt := 4, userId := 7, orderNumber := "123",
          ttype := transactionTypeAccrual, amount := 500 }
      = .error .dbError :=
  ⟨by decide, by decide,
   createTransaction_duplicate_fails exTxStorage
     { id := 51, processedAt := 4, userId := 7, orderNumber := "123",
       ttype := transactionTypeAccrual, amount := 500 }
     (by decide) (by decide)⟩

/-- C6 counterexample: the claim promises the duplicate-pair failure is a
*typed already-exists* error; on a concrete store that already holds an
`accrual` row for order `123`, the repeated insert fails with the generic
database error, which is neither of the typed already-exists errors the
application defines nor any other typed mapping. -/
theorem createTransaction_duplicate_counterexample :
    createTransaction exTxStorage
        { id := 51, processedAt := 4, userId := 7, orderNumber := "123",
          ttype := transactionTypeAccrual, amount := 500 }
      = .error .dbError ∧
    Err.dbError ≠ Err.orderAlreadyExists ∧
    Err.dbError ≠ Err.orderNumberTaken ∧
    Err.dbError ≠ Err.userNotFound := by
  exact ⟨rfl, by decide, by decide, by decide⟩

/-- C10: the `UpdateOrder` frame condition.  For an existing (schema-valid)
order row: with both arguments nil the call returns the stored order as-is and
leaves the store untouched; any successful call preserves the returned order's
id, number, user id and uploaded-at, preserves those four fields on every
stored row, and touches no other table; and the returned order's modified-at
is refreshed to `now` exactly when at least one argument is provided. -/
theorem updateOrder_frame (st : Storage) (now : Nat) (number : String) (ord : Order)
    (hord : st.orders.find? (fun x => x.number = number) = some ord)
    (hvalid : validOrderStatus ord.status = true) :
    updateOrder st now number none none = .ok (ord, st) ∧
    (∀ status accrual o st1, updateOrder st now number status accrual = .ok (o, st1) →
        o.id = ord.id ∧ o.number = ord.number ∧ o.userId = ord.userId ∧
        o.uploadedAt = ord.uploadedAt ∧ st1.users = st.users ∧
        st1.balances = st.balances ∧ st1.transactions = st.transactions ∧
        st1.orders.map (fun x => (x.id, x.number, x.userId, x.uploadedAt))
          = st.orders.map (fun x => (x.id, x.number, x.userId, x.uploadedAt))) ∧
    (∀ status accrual o st1, updateOrder st now number status accrual = .ok (o, st1) →
        status.isSome = true ∨ accrual.isSome = true → o.modifiedAt = now) := by
  refine ⟨?_, ?_, ?_⟩
  · unfold updateOrder
    rw [updateOrder_find, hord]
    simp only [Option.map_some']
    have ht : touchModifiedAt now (none : Option String) (none : Option ℤ) = none := rfl
    rw [ht, orderRowUpd_id]
    simp only [hvalid]
    simp [orderRowUpd_map_id]
  · intro status accrual o st1 h
    have hrow := updateOrder_ok_row hord h
    have hst := updateOrder_ok h
    subst hst
    obtain ⟨h1, h2, h3, h4⟩ :=
      orderRowUpd_frame number status accrual (touchModifiedAt now status accrual) ord
    refine ⟨by rw [hrow, h1], by rw [hrow, h2], by rw [hrow, h3], by rw [hrow, h4],
      rfl, rfl, rfl, ?_⟩
    rw [List.map_map]
    have hfun : ((fun x : Order => (x.id, x.number, x.userId, x.uploadedAt)) ∘
          orderRowUpd number status accrual (touchModifiedAt now status accrual))
        = (fun x : Order => (x.id, x.number, x.userId, x.uploadedAt)) := by
      funext x
      obtain ⟨g1, g2, g3, g4⟩ :=
        orderRowUpd_frame number status accrual (touchModifiedAt now status accrual) x
      simp [Function.comp, g1, g2, g3, g4]
    rw [hfun]
  · intro status accrual o st1 h hsome
    have hrow := updateOrder_ok_row hord h
    have hp := List.find?_some hord
    simp only [decide_eq_true_eq] at hp
    have hnum : ord.number = number := hp
    have ht : touchModifiedAt now status accrual = some now := by
      unfold touchModifiedAt
      rcases hsome with hs | hs <;> simp [hs]
    rw [hrow]
    unfold orderRowUpd
    rw [if_pos hnum, ht]
    rfl

/-- C10 witness: `UpdateOrder` with both arguments nil on the concrete store
returns the stored order unchanged, and with a status provided it refreshes
modified-at. -/
theorem updateOrder_frame_witness :
    exStorage.orders.find? (fun x => x.number = "4242424242424242") = some exOrder ∧
    validOrderStatus exOrder.status = true ∧
    updateOrder exStorage 33 "4242424242424242" none none = .ok (exOrder, exStorage) :=
  ⟨rfl, by decide,
   (updateOrder_frame exStorage 33 "4242424242424242" exOrder rfl (by decide)).1⟩

/-- C8: the accrual client's response taxonomy.  200 yields the decoded
`(order, status, accrual?)` body; 204 yields the no-content error; 429 yields
the rate-limited error whose retry-after is the integer value of the
`Retry-After` header in seconds, or 60 seconds when the header does not parse
as an integer; every other status code yields the unknown error. -/
theorem getOrderAccrual_taxonomy (resp : HttpResponse) :
    (resp.statusCode = 200 → ∀ a, resp.body = some a → getOrderAccrual resp = .ok a) ∧
    (resp.statusCode = 204 → getOrderAccrual resp = .error (.accrualErr codeNoContent 0)) ∧
    (resp.statusCode = 429 →
      (∀ n, atoi (trimSpace resp.retryAfterHeader) = some n →
          getOrderAccrual resp = .error (.accrualErr codeRetryAfter n)) ∧
      (atoi (trimSpace resp.retryAfterHeader) = none →
          getOrderAccrual resp = .error (.accrualErr codeRetryAfter 60))) ∧
    (resp.statusCode ≠ 200 → resp.statusCode ≠ 204 → resp.statusCode ≠ 429 →
      getOrderAccrual resp = .error (.accrualErr codeUnknown 0)) := by
  unfold getOrderAccrual retryAfterSeconds
  refine ⟨?_, ?_, ?_, ?_⟩
  · intro h a hb
    rw [if_pos h, hb]
  · intro h
    simp [h]
  · intro h
    constructor
    · intro n hn
      simp [h, hn]
    · intro hn
      simp [h, hn]
  · intro h200 h204 h429
    rw [if_neg h200, if_neg h429, if_neg h204]

/-- C8 witness: a 429 with `Retry-After: 5` maps to a 5-second rate-limit
error, and a 429 with an unparseable header falls back to 60 seconds. -/
theorem getOrderAccrual_taxonomy_witness :
    atoi (trimSpace " 5 ") = some 5 ∧
    getOrderAccrual { statusCode := 429, retryAfterHeader := " 5 ", body := none }
      = .error (.accrualErr codeRetryAfter 5) ∧
    atoi (trimSpace "abc") = none ∧
    getOrderAccrual { statusCode := 429, retryAfterHeader := "abc", body := none }
      = .error (.accrualErr codeRetryAfter 60) :=
  ⟨by decide,
   ((getOrderAccrual_taxonomy
      { statusCode := 429, retryAfterHeader := " 5 ", body := none }).2.2.1
      rfl).1 5 (by decide),
   by decide,
   ((getOrderAccrual_taxonomy
      { statusCode := 429, retryAfterHeader := "abc", body := none }).2.2.1
      rfl).2 (by decide)⟩

theorem balanceRowUpd_userId (userId : Nat) (cd wd : ℤ) (b : Balance) :
    (balanceRowUpd userId cd wd b).userId = b.userId := by
  unfold balanceRowUpd
  split <;> rfl

theorem balanceTxUpd_userId (t : Transaction) (b : Balance) :
    (balanceTxUpd t b).userId = b.userId := by
  unfold balanceTxUpd
  exact balanceRowUpd_userId t.userId _ _ b

/-- A row whose `user_id` does not match is untouched by the balance update. -/
theorem balanceTxUpd_noop {t : Transaction} {b : Balance}
    (h : ¬ b.userId = t.userId) : balanceTxUpd t b = b := by
  unfold balanceTxUpd balanceRowUpd
  rw [if_neg h]

/-- `UPDATE balances ... WHERE user_id = $1 RETURNING ...` with
`CollectOneRow`: the returned row is the updated image of the row the `WHERE`
clause found. -/
theorem updateBalance_find {st : Storage} {t : Transaction} :
    (st.balances.map (balanceTxUpd t)).find? (fun b => b.userId = t.userId)
      = (st.balances.find? (fun b => b.userId = t.userId)).map (balanceTxUpd t) := by
  rw [List.find?_map]
  have hp : ((fun b => decide (b.userId = t.userId)) ∘ balanceTxUpd t)
      = (fun b : Balance => decide (b.userId = t.userId)) := by
    funext b
    simp [Function.comp, balanceTxUpd_userId]
  rw [hp]

/-- A successful `UpdateBalance` means the check constraint held: no updated
row of the statement went negative. -/
theorem updateBalance_ok_check {st : Storage} {t : Transaction} {b : Balance}
    {st1 : Storage} (h : updateBalance st t = .ok (b, st1)) :
    (st.balances.map (balanceTxUpd t)).any
      (fun x => x.userId = t.userId && x.current < 0) = false := by
  unfold updateBalance at h
  split at h
  · simp at h
  · split at h
    · simp at h
    next hcond =>
      simp only [Bool.not_eq_true] at hcond
      exact hcond

/-- One `UpdateBalance` step keeps every balance non-negative: rejected
statements change nothing, and committed ones passed the check constraint on
the rows they touched. -/
theorem applyBalanceUpdate_nonneg (st : Storage) (t : Transaction)
    (h : balancesNonneg st) : balancesNonneg (applyBalanceUpdate st t) := by
  unfold applyBalanceUpdate
  cases hu : updateBalance st t with
  | error e => exact h
  | ok p =>
    obtain ⟨b1, st1⟩ := p
    have hst := updateBalance_ok hu
    have hchk := updateBalance_ok_check hu
    subst hst
    intro x hx
    simp only [List.mem_map] at hx
    obtain ⟨y, hy, rfl⟩ := hx
    by_cases huid : y.userId = t.userId
    · have hall := List.any_eq_false.mp hchk (balanceTxUpd t y)
        (List.mem_map_of_mem _ hy)
      simp only [balanceTxUpd_userId, huid, decide_True, Bool.true_and,
        Bool.not_eq_true, decide_eq_false_iff_not, not_lt] at hall
      exact hall
    · rw [balanceTxUpd_noop huid]
      exact h y hy

/-- C3: the non-negative balance invariant.  A freshly created balance starts
at `(0, 0)`; every balance write of the system (the `SetProcessed` credit and
the `Withdraw` debit both go through `UpdateBalance`) keeps every balance's
`current` non-negative over any sequence of accruals and withdrawals; and a
withdrawal whose amount exceeds the current balance is rejected by the check
constraint with `ErrBalanceInsufficient`, changing nothing. -/
theorem balance_nonneg_invariant :
    (∀ id userId, (freshBalance id userId).current = 0 ∧
        (freshBalance id userId).withdrawn = 0) ∧
    (∀ (ts : List Transaction) (st0 : Storage), balancesNonneg st0 →
        balancesNonneg (ts.foldl applyBalanceUpdate st0)) ∧
    (∀ (st : Storage) (t : Transaction) (b : Balance),
        t.ttype = transactionTypeWithdrawal →
        st.balances.find? (fun x => x.userId = t.userId) = some b →
        b.current < t.amount →
        updateBalance st t = .error .balanceInsufficient ∧
          applyBalanceUpdate st t = st) := by
  refine ⟨fun id userId => ⟨rfl, rfl⟩, ?_, ?_⟩
  · intro ts
    induction ts with
    | nil => exact fun st0 h => h
    | cons t ts ih =>
      intro st0 h
      exact ih (applyBalanceUpdate st0 t) (applyBalanceUpdate_nonneg st0 t h)
  · intro st t b hw hb hlt
    have hmem := List.mem_of_find?_eq_some hb
    have hp := List.find?_some hb
    simp only [decide_eq_true_eq] at hp
    have hneg : (balanceTxUpd t b).current < 0 := by
      unfold balanceTxUpd balanceRowUpd
      rw [if_pos hp, hw]
      simp
      omega
    have herr : updateBalance st t = .error .balanceInsufficient := by
      unfold updateBalance
      rw [updateBalance_find, hb]
      simp only [Option.map_some']
      have hany : (st.balances.map (balanceTxUpd t)).any
          (fun x => x.userId = t.userId && x.current < 0) = true := by
        refine List.any_eq_true.mpr ⟨balanceTxUpd t b, List.mem_map_of_mem _ hmem, ?_⟩
        simp [balanceTxUpd_userId, hp, hneg]
      rw [if_pos hany]
    refine ⟨herr, ?_⟩
    unfold applyBalanceUpdate
    rw [herr]

/-- C3 witness: a 150.00 withdrawal against a 100.00 balance is rejected and
is a no-op, and the empty sequence on a fresh store is non-negative. -/
theorem balance_nonneg_invariant_witness :
    balancesNonneg exStorage ∧
    balancesNonneg (List.foldl applyBalanceUpdate exStorage []) ∧
    ({ id := 60, processedAt := 8, userId := 7, orderNumber := "1234",
       ttype := transactionTypeWithdrawal, amount := 15000 } : Transaction).ttype
      = transactionTypeWithdrawal ∧
    exStorage.balances.find? (fun x => x.userId = 7) = some exBalance ∧
    exBalance.current < 15000 ∧
    updateBalance exStorage
        { id := 60, processedAt := 8, userId := 7, orderNumber := "1234",
          ttype := transactionTypeWithdrawal, amount := 15000 }
      = .error .balanceInsufficient := by
  have hnn : balancesNonneg exStorage := by
    intro b hb
    simp only [exStorage, exBalance, List.mem_singleton] at hb
    subst hb
    decide
  refine ⟨hnn, (balance_nonneg_invariant.2.1 [] exStorage) hnn, rfl, rfl,
    by decide, ?_⟩
  exact (balance_nonneg_invariant.2.2 exStorage
    { id := 60, processedAt := 8, userId := 7, orderNumber := "1234",
      ttype := transactionTypeWithdrawal, amount := 15000 }
    exBalance rfl rfl (by decide)).1

/-- C4: the worker's no-content outcome.  When the accrual client reports 204
no-content for an existing, not-yet-terminal order, the worker finalizes it to
`invalid` with no accrual: afterwards the order row's status is `invalid`
while its stored accrual is untouched, the transactions ledger is unchanged
(an order with no prior ledger row still has none) and every balance is
unchanged.  The optional-accrual finalize is modelled from the spec (§4.5):
with no accrual there is no ledger insert and no balance credit. -/
theorem workerNoContent_invalidates (now txId : Nat) (st : Storage)
    (order ord : Order)
    (hord : st.orders.find? (fun x => x.number = order.number) = some ord)
    (hnp : ord.status ≠ orderStatusProcessed)
    (hni : ord.status ≠ orderStatusInvalid) :
    workerNoContent now txId st order
      = (.ok (orderRowUpd order.number (some orderStatusInvalid) none (some now) ord),
         { st with orders := st.orders.map (orderRowUpd order.number (some orderStatusInvalid) none (some now)) }) ∧
    (orderRowUpd order.number (some orderStatusInvalid) none (some now) ord).status
      = orderStatusInvalid ∧
    (orderRowUpd order.number (some orderStatusInvalid) none (some now) ord).accrual
      = ord.accrual ∧
    ((∀ t ∈ st.transactions, t.orderNumber ≠ order.number) →
      ∀ t ∈ (workerNoContent now txId st order).2.transactions,
        t.orderNumber ≠ order.number) := by
  have hp := List.find?_some hord
  simp only [decide_eq_true_eq] at hp
  have hrow_status :
      (orderRowUpd order.number (some orderStatusInvalid) none (some now) ord).status
        = orderStatusInvalid := by
    unfold orderRowUpd
    rw [if_pos hp]
    rfl
  have hrow_accrual :
      (orderRowUpd order.number (some orderStatusInvalid) none (some now) ord).accrual
        = ord.accrual := by
    unfold orderRowUpd
    rw [if_pos hp]
    rfl
  have hvalid : validOrderStatus
      (orderRowUpd order.number (some orderStatusInvalid) none (some now) ord).status
      = true := by
    rw [hrow_status]
    decide
  have ht : touchModifiedAt now (some orderStatusInvalid) (none : Option ℤ)
      = some now := rfl
  have hupd : updateOrder st now order.number (some orderStatusInvalid) none
      = .ok (orderRowUpd order.number (some orderStatusInvalid) none (some now) ord,
        { st with orders := st.orders.map (orderRowUpd order.number (some orderStatusInvalid) none (some now)) }) := by
    unfold updateOrder
    rw [updateOrder_find, hord]
    simp only [Option.map_some', ht]
    rw [if_neg (not_not_intro hvalid)]
  have hterm : ¬ (ord.status = orderStatusProcessed ∨ ord.status = orderStatusInvalid) := by
    rintro (h | h)
    · exact hnp h
    · exact hni h
  have hmain : workerNoContent now txId st order
      = (.ok (orderRowUpd order.number (some orderStatusInvalid) none (some now) ord),
         { st with orders := st.orders.map (orderRowUpd order.number (some orderStatusInvalid) none (some now)) }) := by
    unfold workerNoContent
    show inTx st (setProcessedOptNoneBody now order.number orderStatusInvalid) = _
    unfold inTx setProcessedOptNoneBody getOrder
    rw [hord]
    simp only [if_neg hterm, hupd]
  refine ⟨hmain, hrow_status, hrow_accrual, ?_⟩
  intro hnone t htmem
  rw [hmain] at htmem
  exact hnone t htmem

/-- C4 witness: a 204 for the concrete new order turns it `invalid`, its
ledger stays empty and the balance stays at 100.00. -/
theorem workerNoContent_invalidates_witness :
    exStorage.orders.find? (fun x => x.number = exOrder.number) = some exOrder ∧
    workerNoContent 12 101 exStorage exOrder
      = (.ok (orderRowUpd exOrder.number (some orderStatusInvalid) none (some 12) exOrder),
         { exStorage with orders := exStorage.orders.map (orderRowUpd exOrder.number (some orderStatusInvalid) none (some 12)) }) ∧
    (workerNoContent 12 101 exStorage exOrder).2.transactions = [] ∧
    (workerNoContent 12 101 exStorage exOrder).2.balances = [exBalance] :=
  ⟨rfl,
   (workerNoContent_invalidates 12 101 exStorage exOrder exOrder rfl
      (by decide) (by decide)).1,
   by decide, by decide⟩

end Gophermart
